import Mathlib

/-!
Verification of the PMEM-CSI node-local volume lifecycle engine.

The definitions below are a shallow embedding of the Go sources
`pkg/pmem-csi-driver/controllerserver-node.go` and
`pkg/pmem-csi-driver/nodeserver.go`.  Go strings are modelled as `String`
(and, where byte-level behaviour matters, as `List Nat` of bytes), Go
`int64`/`int32` as `Int` with explicit wrapping, Go maps as association
lists, and the external collaborators (device manager, mounter,
subprocess calls) as explicit oracle inputs.  The deployed driver always
constructs the node controller with a non-nil state manager
(`pmem-csi-driver.go`), so the state store is modelled as always present.
-/

namespace PmemCSI

/-! ## 32-bit words and SHA-224 (Go `crypto/sha256.New224`)

`generateVolumeID` hashes the volume name with SHA-224 and hex-encodes the
digest (`encoding/hex.EncodeToString`, lowercase).  The hash is embedded
here directly from FIPS 180-4, on byte lists, with 32-bit words as `Nat`
reduced `% 2^32`. -/

def w32 (n : Nat) : Nat := n % 4294967296

def bnot32 (x : Nat) : Nat := Nat.xor x 4294967295

def rotr32 (x n : Nat) : Nat := w32 ((x >>> n) ||| (x <<< (32 - n)))

def sha2ch (x y z : Nat) : Nat := Nat.xor (x &&& y) (bnot32 x &&& z)

def sha2maj (x y z : Nat) : Nat := Nat.xor (Nat.xor (x &&& y) (x &&& z)) (y &&& z)

def sha2S0 (x : Nat) : Nat := Nat.xor (Nat.xor (rotr32 x 2) (rotr32 x 13)) (rotr32 x 22)

def sha2S1 (x : Nat) : Nat := Nat.xor (Nat.xor (rotr32 x 6) (rotr32 x 11)) (rotr32 x 25)

def sha2s0 (x : Nat) : Nat := Nat.xor (Nat.xor (rotr32 x 7) (rotr32 x 18)) (x >>> 3)

def sha2s1 (x : Nat) : Nat := Nat.xor (Nat.xor (rotr32 x 17) (rotr32 x 19)) (x >>> 10)

def sha2K : List Nat :=
  [1116352408, 1899447441, 3049323471, 3921009573, 961987163,
   1508970993, 2453635748, 2870763221, 3624381080, 310598401,
   607225278, 1426881987, 1925078388, 2162078206, 2614888103,
   3248222580, 3835390401, 4022224774, 264347078, 604807628,
   770255983, 1249150122, 1555081692, 1996064986, 2554220882,
   2821834349, 2952996808, 3210313671, 3336571891, 3584528711,
   113926993, 338241895, 666307205, 773529912, 1294757372,
   1396182291, 1695183700, 1986661051, 2177026350, 2456956037,
   2730485921, 2820302411, 3259730800, 3345764771, 3516065817,
   3600352804, 4094571909, 275423344, 430227734, 506948616,
   659060556, 883997877, 958139571, 1322822218, 1537002063,
   1747873779, 1955562222, 2024104815, 2227730452, 2361852424,
   2428436474, 2756734187, 3204031479, 3329325298]

/-- SHA-224 initial hash values (FIPS 180-4 §5.3.2). -/
def sha224InitH : List Nat :=
  [3238371032, 914150663, 812702999, 4144912697, 4290775857, 1750603025, 1694076839, 3204075428]

/-- Big-endian bytes of a natural, `k` bytes wide. -/
def natToBytesBE : Nat → Nat → List Nat
  | 0, _ => []
  | k + 1, n => natToBytesBE k (n / 256) ++ [n % 256]

/-- Group a byte list into big-endian 32-bit words (complete 4-byte groups). -/
def bytesToWordsBE : List Nat → List Nat
  | b0 :: b1 :: b2 :: b3 :: rest => (((b0 * 256 + b1) * 256 + b2) * 256 + b3) :: bytesToWordsBE rest
  | _ => []

/-- SHA-2 message padding: append `0x80`, zeros to 56 mod 64, then the
bit length as 8 big-endian bytes. -/
def sha2pad (msg : List Nat) : List Nat :=
  msg ++ [0x80] ++ List.replicate ((119 - msg.length % 64) % 64) 0 ++ natToBytesBE 8 (msg.length * 8)

/-- Extend a 16-word block to the 64-word message schedule. -/
def sha2extend : List Nat → Nat → List Nat
  | w, 0 => w
  | w, k + 1 =>
    let n := w.length
    let x := w32 (sha2s1 (w.getD (n - 2) 0) + w.getD (n - 7) 0 + sha2s0 (w.getD (n - 15) 0) + w.getD (n - 16) 0)
    sha2extend (w ++ [x]) k

/-- One compression round; the state is the 8-word working list `[a..h]`. -/
def sha2round (st : List Nat) (kw : Nat × Nat) : List Nat :=
  match st with
  | [a, b, c, d, e, f, g, h] =>
    let t1 := w32 (h + sha2S1 e + sha2ch e f g + kw.1 + kw.2)
    let t2 := w32 (sha2S0 a + sha2maj a b c)
    [w32 (t1 + t2), a, b, c, w32 (d + t1), e, f, g]
  | other => other

/-- Compress one 64-byte block into the running hash. -/
def sha2compress (h : List Nat) (block : List Nat) : List Nat :=
  let w := sha2extend (bytesToWordsBE block) 48
  let st := (sha2K.zip w).foldl sha2round h
  (h.zip st).map (fun p => w32 (p.1 + p.2))

/-- Split into 64-byte chunks (fuel-based so the kernel can evaluate it;
the fuel bound `l.length` always suffices because each step consumes a
nonempty prefix). -/
def chunks64Go : Nat → List Nat → List (List Nat)
  | 0, _ => []
  | _, [] => []
  | fuel + 1, l => l.take 64 :: chunks64Go fuel (l.drop 64)

def chunks64 (l : List Nat) : List (List Nat) := chunks64Go l.length l

/-- SHA-224 digest (28 bytes) of a byte message, per FIPS 180-4: SHA-256
compression with the SHA-224 initial values, truncated to 7 words. -/
def sha224 (msg : List Nat) : List Nat :=
  let hfinal := (chunks64 (sha2pad msg)).foldl sha2compress sha224InitH
  (hfinal.take 7).flatMap (natToBytesBE 4)

/-- Lowercase hex digit, as Go's `encoding/hex` emits. -/
def hexDigit (n : Nat) : Nat := if n < 10 then 48 + n else 87 + n

/-- `encoding/hex.EncodeToString` on a byte list, as ASCII bytes. -/
def hexEncodeBytes (bs : List Nat) : List Nat :=
  bs.flatMap (fun b => [hexDigit (b / 16), hexDigit (b % 16)])

/-- UTF-8 encoding of one code point. -/
def utf8Char (c : Char) : List Nat :=
  let n := c.toNat
  if n < 0x80 then [n]
  else if n < 0x800 then [0xc0 + n / 64, 0x80 + n % 64]
  else if n < 0x10000 then [0xe0 + n / 4096, 0x80 + n / 64 % 64, 0x80 + n % 64]
  else [0xf0 + n / 262144, 0x80 + n / 4096 % 64, 0x80 + n / 64 % 64, 0x80 + n % 64]

/-- The bytes of a Go string holding the UTF-8 encoding of `s`. -/
def utf8Bytes (s : String) : List Nat := s.data.flatMap utf8Char

/-! ## generateVolumeID (controllerserver-node.go:521-544)

Go strings are byte strings and `name[0:use]` slices bytes, so the
faithful embedding works on byte lists. -/

/-- Embedding of `generateVolumeID`: SHA-224 of the name, hex-encoded,
prefixed with the first `min 6 (len name)` bytes of the name and `"-"`
(byte 45). -/
def generateVolumeID (name : List Nat) : List Nat :=
  let hash := hexEncodeBytes (sha224 name)
  let use := if name.length < 6 then name.length else 6
  (name.take use) ++ [45] ++ hash

/-! ## gRPC status codes and driver data model -/

/-- The gRPC status codes the handlers return.  `unknownErr` stands for a
plain (non-status) Go error returned from a handler, which gRPC maps to
code `Unknown`. -/
inductive Code
  | invalidArgument
  | notFound
  | alreadyExists
  | failedPrecondition
  | resourceExhausted
  | aborted
  | internal
  | unknownErr
deriving DecidableEq

inductive DeviceMode
  | lvm
  | direct
deriving DecidableEq

/-- Namespace usage. `appDirect` covers `fsdax`, which the spec treats as
equivalent for mounting. -/
inductive Usage
  | appDirect
  | sector
deriving DecidableEq

inductive Persistency
  | normal
  | ephemeral
deriving DecidableEq

/-! ## Volume parameters

Modelled from the spec: the `pkg/pmem-csi-driver/parameters` package is
not among the provided sources (only its callers are); the recognized
keys, their legal origins, defaults, and the rejection of unknown keys
follow the table in spec §6 and the origin names used by the callers. -/

def keyName : String := "name"

def keySize : String := "size"

def keyEraseAfter : String := "eraseAfter"

def keyUsage : String := "usage"

def keyKataContainers : String := "kataContainers"

def keyDeviceMode : String := "deviceMode"

def keyPersistency : String := "persistency"

def keyEphemeral : String := "csi.storage.k8s.io/ephemeral"

def keyProvisionerID : String := "storage.kubernetes.io/csiProvisionerIdentity"

/-- Parameter origins, matching `parameters.CreateVolumeOrigin`,
`parameters.EphemeralVolumeOrigin`, `parameters.PersistentVolumeOrigin`
and `parameters.NodeVolumeOrigin` at the call sites. -/
inductive Origin
  | createVolume
  | ephemeralVolume
  | persistentVolume
  | nodeVolume
deriving DecidableEq

/-- Modelled from the spec: which keys are legal for which origin
(spec §6 table; internal keys appear in persisted state and in the
volume context that the driver itself built). -/
def legalKey (origin : Origin) (k : String) : Bool :=
  match origin with
  | .createVolume => k ∈ [keySize, keyEraseAfter, keyUsage, keyKataContainers]
  | .ephemeralVolume =>
      k ∈ [keySize, keyEraseAfter, keyUsage, keyKataContainers, keyEphemeral]
  | .persistentVolume =>
      k ∈ [keyName, keySize, keyEraseAfter, keyUsage, keyKataContainers,
           keyEphemeral, keyProvisionerID]
  | .nodeVolume =>
      k ∈ [keyName, keySize, keyEraseAfter, keyUsage, keyKataContainers,
           keyDeviceMode, keyPersistency]

/-- Go `strconv.ParseBool`. -/
def parseGoBool (s : String) : Option Bool :=
  if s = "1" ∨ s = "t" ∨ s = "T" ∨ s = "true" ∨ s = "TRUE" ∨ s = "True" then some true
  else if s = "0" ∨ s = "f" ∨ s = "F" ∨ s = "false" ∨ s = "FALSE" ∨ s = "False" then some false
  else none

def digitsToNat (cs : List Char) : Nat :=
  cs.foldl (fun a c => a * 10 + (c.toNat - 48)) 0

/-- Modelled from the spec: a size with an optional binary suffix such as
`100Mi` (spec §6), as a byte count. -/
def parseQuantity (s : String) : Option Int :=
  let digitsOf : List Char → Nat → Option Int := fun cs mult =>
    if cs ≠ [] ∧ cs.all Char.isDigit then some ((digitsToNat cs * mult : Nat) : Int) else none
  if s.endsWith "Ki" then digitsOf s.data.dropLast.dropLast 1024
  else if s.endsWith "Mi" then digitsOf s.data.dropLast.dropLast 1048576
  else if s.endsWith "Gi" then digitsOf s.data.dropLast.dropLast 1073741824
  else if s.endsWith "Ti" then digitsOf s.data.dropLast.dropLast 1099511627776
  else digitsOf s.data 1

/-- The parsed volume parameters (`parameters.Volume`); unset fields fall
back to the documented defaults via the getters below. -/
structure PVolume where
  name : Option String := none
  size : Option Int := none
  eraseAfter : Option Bool := none
  usage : Option Usage := none
  kataContainers : Option Bool := none
  persistency : Option Persistency := none
  deviceMode : Option DeviceMode := none
deriving DecidableEq

def PVolume.getEraseAfter (p : PVolume) : Bool := p.eraseAfter.getD true

def PVolume.getUsage (p : PVolume) : Usage := p.usage.getD .appDirect

def PVolume.getKataContainers (p : PVolume) : Bool := p.kataContainers.getD false

def PVolume.getPersistency (p : PVolume) : Persistency := p.persistency.getD .normal

def PVolume.getDeviceMode (p : PVolume) : DeviceMode := p.deviceMode.getD .lvm

def PVolume.getSize (p : PVolume) : Int := p.size.getD 0

/-- Modelled from the spec: one key/value of `parameters.Parse` — an
illegal or unknown key for the origin is rejected, recognized values are
decoded into the corresponding field. -/
def parseKV (origin : Origin) (p : PVolume) (kv : String × String) : Except String PVolume :=
  if ¬ legalKey origin kv.1 then .error "parameter not allowed"
  else if kv.1 = keyName then .ok {p with name := some kv.2}
  else if kv.1 = keySize then
    match parseQuantity kv.2 with
    | some n => .ok {p with size := some n}
    | none => .error "bad size value"
  else if kv.1 = keyEraseAfter then
    match parseGoBool kv.2 with
    | some b => .ok {p with eraseAfter := some b}
    | none => .error "bad eraseAfter value"
  else if kv.1 = keyUsage then
    if kv.2 = "fsdax" ∨ kv.2 = "appDirect" then .ok {p with usage := some .appDirect}
    else if kv.2 = "sector" then .ok {p with usage := some .sector}
    else .error "bad usage value"
  else if kv.1 = keyKataContainers then
    match parseGoBool kv.2 with
    | some b => .ok {p with kataContainers := some b}
    | none => .error "bad kataContainers value"
  else if kv.1 = keyDeviceMode then
    if kv.2 = "lvm" then .ok {p with deviceMode := some .lvm}
    else if kv.2 = "direct" then .ok {p with deviceMode := some .direct}
    else .error "bad deviceMode value"
  else if kv.1 = keyPersistency then
    if kv.2 = "ephemeral" then .ok {p with persistency := some .ephemeral}
    else if kv.2 = "normal" then .ok {p with persistency := some .normal}
    else .error "bad persistency value"
  else if kv.1 = keyEphemeral then
    match parseGoBool kv.2 with
    | some true => .ok {p with persistency := some .ephemeral}
    | some false => .ok p
    | none => .error "bad ephemeral value"
  else .ok p

/-- Modelled from the spec: `parameters.Parse` folds the recognized-key
table over the string map. -/
def parseParams (origin : Origin) (params : List (String × String)) : Except String PVolume :=
  params.foldlM (parseKV origin) {}

def boolStr (b : Bool) : String := if b then "true" else "false"

def usageStr (u : Usage) : String :=
  match u with
  | .appDirect => "fsdax"
  | .sector => "sector"

def deviceModeStr (m : DeviceMode) : String :=
  match m with
  | .lvm => "lvm"
  | .direct => "direct"

def persistencyStr (q : Persistency) : String :=
  match q with
  | .normal => "normal"
  | .ephemeral => "ephemeral"

def optEntry (k : String) (v : Option String) : List (String × String) :=
  match v with
  | some s => [(k, s)]
  | none => []

/-- Modelled from the spec: `parameters.Volume.ToContext` serializes the
set fields back to the string map. -/
def PVolume.toContext (p : PVolume) : List (String × String) :=
  optEntry keyName p.name ++
  optEntry keySize (p.size.map toString) ++
  optEntry keyEraseAfter (p.eraseAfter.map boolStr) ++
  optEntry keyUsage (p.usage.map usageStr) ++
  optEntry keyKataContainers (p.kataContainers.map boolStr) ++
  optEntry keyPersistency (p.persistency.map persistencyStr) ++
  optEntry keyDeviceMode (p.deviceMode.map deviceModeStr)

/-! ## Association lists as Go maps, and the server state -/

def alookup {α : Type} (l : List (String × α)) (k : String) : Option α :=
  match l with
  | [] => none
  | (k', v) :: t => if k' = k then some v else alookup t k

def eraseKey {α : Type} (k : String) (l : List (String × α)) : List (String × α) :=
  l.filter (fun kv => kv.1 ≠ k)

def insertKV {α : Type} (k : String) (v : α) (l : List (String × α)) : List (String × α) :=
  (k, v) :: eraseKey k l

/-- Go map indexing: a missing key yields the zero value `""`
(`pmemVol.Params[parameters.Name]`). -/
def paramsGet (params : List (String × String)) (k : String) : String :=
  (alookup params k).getD ""

/-- `nodeVolume` (controllerserver-node.go:36-40): what is kept in the
in-memory table and serialized into the state store. -/
structure NodeVolume where
  id : String
  size : Int
  params : List (String × String)
deriving DecidableEq

/-- The mutable state of `nodeControllerServer`: the in-memory volume
table `pmemVolumes` and the contents of the persistent state store
(`pmemstate.StateManager`, one entry per volume ID). -/
structure ServerState where
  pmemVolumes : List (String × NodeVolume)
  store : List (String × NodeVolume)
deriving DecidableEq

/-- Observable operations a handler performs, in order: state-store
writes/deletes, device-manager create/delete/get, mkfs, mount, and
in-memory table updates. -/
inductive Event
  | smCreate (id : String)
  | smDelete (id : String)
  | dmCreateDevice (id : String)
  | dmDeleteDevice (id : String)
  | dmGetDevice (id : String)
  | mkfs (path : String)
  | mountOp (target : String)
  | memInsert (id : String)
  | memRemove (id : String)
deriving DecidableEq

/-- `getVolumeByID` (controllerserver-node.go:493-500). -/
def getVolumeByID (S : ServerState) (volumeID : String) : Option NodeVolume :=
  alookup S.pmemVolumes volumeID

/-- `getVolumeByName` (controllerserver-node.go:502-511): first table
entry whose `name` parameter (Go map read, `""` when absent) equals the
requested name. -/
def getVolumeByName (S : ServerState) (volumeName : String) : Option NodeVolume :=
  (S.pmemVolumes.find? (fun kv => paramsGet kv.2.params keyName = volumeName)).map (fun kv => kv.2)

/-- Go `int64(u)` on a `uint64` value. -/
def int64OfUInt64 (n : Nat) : Int :=
  if n % 18446744073709551616 < 9223372036854775808 then ((n % 18446744073709551616 : Nat) : Int)
  else ((n % 18446744073709551616 : Nat) : Int) - 18446744073709551616

def charOfByte (b : Nat) : Char := Char.ofNat (b % 256)

/-- A Go byte string rendered injectively as a Lean string (one `Char`
per byte), used where the rest of the model works with `String`. -/
def bytesAsString (bs : List Nat) : String := String.mk (bs.map charOfByte)

/-- `generateVolumeID` lifted to the `String`-level model of Go strings. -/
def generateVolumeIDStr (name : String) : String :=
  bytesAsString (generateVolumeID (utf8Bytes name))

/-! ## createVolumeInternal (controllerserver-node.go:210-309) -/

/-- Outcome of `dm.CreateDevice` as reported by the device manager:
the actual size, a `pmemerr.NotEnoughSpace` error, or any other error. -/
inductive CreateDeviceRes
  | ok (actualSize : Nat)
  | notEnoughSpace
  | errOther
deriving DecidableEq

/-- Embedding of `createVolumeInternal`.  `asked` is
`capacity.GetRequiredBytes()`; `cres` is the device manager's answer to
the (single possible) `CreateDevice` call; `dmMode` is `cs.dm.GetMode()`.
Returns the result, the new server state, and the event trace. -/
def createVolumeInternal (S : ServerState) (p : PVolume) (volumeName : String)
    (asked : Int) (cres : CreateDeviceRes) (dmMode : DeviceMode) :
    Except Code (String × Int) × ServerState × List Event :=
  match getVolumeByName S volumeName with
  | some vol =>
    if vol.size < asked then (.error .alreadyExists, S, [])
    else (.ok (vol.id, vol.size), S, [])
  | none =>
    let volumeID := generateVolumeIDStr volumeName
    match getVolumeByID S volumeID with
    | some _ => (.error .internal, S, [])
    | none =>
      let p1 : PVolume := {p with name := some volumeName, deviceMode := some dmMode}
      let vol : NodeVolume := {id := volumeID, size := asked, params := p1.toContext}
      let store1 := insertKV volumeID vol S.store
      match cres with
      | .notEnoughSpace =>
        (.error .resourceExhausted, {S with store := eraseKey volumeID store1},
          [.smCreate volumeID, .dmCreateDevice volumeID, .smDelete volumeID])
      | .errOther =>
        (.error .internal, {S with store := eraseKey volumeID store1},
          [.smCreate volumeID, .dmCreateDevice volumeID, .smDelete volumeID])
      | .ok actualSize =>
        let actual := int64OfUInt64 actualSize
        let vol2 : NodeVolume := if vol.size ≠ actual then {vol with size := actual} else vol
        let store2 := if vol.size ≠ actual then insertKV volumeID vol2 store1 else store1
        let ev2 : List Event := if vol.size ≠ actual then [.smCreate volumeID] else []
        (.ok (volumeID, actual),
          {pmemVolumes := insertKV volumeID vol2 S.pmemVolumes, store := store2},
          [.smCreate volumeID, .dmCreateDevice volumeID] ++ ev2 ++ [.memInsert volumeID])

/-! ## DeleteVolume (controllerserver-node.go:311-369) -/

/-- Outcome of `dm.DeleteDevice`: success, `pmemerr.DeviceInUse`, or any
other error. -/
inductive DeleteDeviceRes
  | ok
  | deviceInUse
  | errOther
deriving DecidableEq

/-- Embedding of `DeleteVolume`.  `auxNewOk` says whether
`pmdmanager.New` would succeed when the stored device mode differs from
the active one; `dres` is the device manager's answer to `DeleteDevice`. -/
def deleteVolume (S : ServerState) (volumeID : String) (auxNewOk : Bool)
    (dres : DeleteDeviceRes) (dmMode : DeviceMode) :
    Except Code Unit × ServerState × List Event :=
  if volumeID = "" then (.error .invalidArgument, S, [])
  else
    match getVolumeByID S volumeID with
    | none => (.ok (), S, [])
    | some vol =>
      match parseParams .nodeVolume vol.params with
      | .error _ => (.error .internal, S, [])
      | .ok p =>
        if p.getDeviceMode ≠ dmMode ∧ ¬ auxNewOk then (.error .internal, S, [])
        else
          match dres with
          | .deviceInUse => (.error .failedPrecondition, S, [.dmDeleteDevice volumeID])
          | .errOther => (.error .internal, S, [.dmDeleteDevice volumeID])
          | .ok =>
            (.ok (),
              {pmemVolumes := eraseKey volumeID S.pmemVolumes,
               store := eraseKey volumeID S.store},
              [.dmDeleteDevice volumeID, .smDelete volumeID, .memRemove volumeID])

/-! ## Startup reconciliation (NewNodeControllerServer, controllerserver-node.go:56-140) -/

/-- Outcome of `GetDevice` on the auxiliary device manager instantiated
for a stored device mode that differs from the active one. -/
inductive AuxGetRes
  | found
  | notFound
  | errOther
deriving DecidableEq

/-- Environment of the reconciliation loop: whether `pmdmanager.New`
succeeds for a given mode, and what `GetDevice` on that auxiliary
manager reports. -/
structure ReconEnv where
  auxNew : DeviceMode → Bool
  auxGet : DeviceMode → String → AuxGetRes

/-- One iteration of the restore loop (controllerserver-node.go:86-130):
the accumulator carries the in-memory table being built, the
`cleanupList`, and the event trace. -/
def reconcileStep (dmMode : DeviceMode) (devices : List String) (env : ReconEnv)
    (store0 : List (String × NodeVolume))
    (acc : List (String × NodeVolume) × List String × List Event) (id : String) :
    List (String × NodeVolume) × List String × List Event :=
  match alookup store0 id with
  | none => acc
  | some vol =>
    match parseParams .nodeVolume vol.params with
    | .error _ => acc
    | .ok p =>
      if p.getDeviceMode ≠ dmMode then
        if ¬ env.auxNew p.getDeviceMode then acc
        else
          match env.auxGet p.getDeviceMode id with
          | .found => (acc.1 ++ [(id, vol)], acc.2.1, acc.2.2 ++ [.dmGetDevice id])
          | .notFound => (acc.1, acc.2.1 ++ [id], acc.2.2 ++ [.dmGetDevice id])
          | .errOther => (acc.1, acc.2.1, acc.2.2 ++ [.dmGetDevice id])
      else
        if id ∈ devices then (acc.1 ++ [(id, vol)], acc.2.1, acc.2.2)
        else (acc.1, acc.2.1 ++ [id], acc.2.2)

/-- Embedding of the state-restoring part of `NewNodeControllerServer`:
`devices` is `dm.ListDevices()` (as volume IDs), `store0` the contents of
the state store; returns the resulting server state and the events
(auxiliary `GetDevice` queries and the deferred `sm.Delete` calls). -/
def newNodeControllerServer (dmMode : DeviceMode) (devices : List String)
    (store0 : List (String × NodeVolume)) (env : ReconEnv) :
    ServerState × List Event :=
  let ids := store0.map Prod.fst
  let tce := ids.foldl (reconcileStep dmMode devices env store0) ([], [], [])
  ({pmemVolumes := tce.1, store := tce.2.1.foldl (fun st id => eraseKey id st) store0},
   tce.2.2 ++ tce.2.1.map .smDelete)

/-- Per-id classification of the restore loop, read off the same
branches as `reconcileStep`: `some true` = placed in the table,
`some false` = scheduled for cleanup, `none` = skipped (unreadable or
unparseable entry, failing auxiliary manager, or failing auxiliary
`GetDevice`). -/
def reconClass (dmMode : DeviceMode) (devices : List String) (env : ReconEnv)
    (store0 : List (String × NodeVolume)) (id : String) : Option Bool :=
  match alookup store0 id with
  | none => none
  | some vol =>
    match parseParams .nodeVolume vol.params with
    | .error _ => none
    | .ok p =>
      if p.getDeviceMode ≠ dmMode then
        if ¬ env.auxNew p.getDeviceMode then none
        else
          match env.auxGet p.getDeviceMode id with
          | .found => some true
          | .notFound => some false
          | .errOther => none
      else if id ∈ devices then some true else some false

/-- The events one loop iteration emits (an auxiliary `GetDevice` query
when the stored mode differs from the active one). -/
def reconEv (dmMode : DeviceMode) (env : ReconEnv) (store0 : List (String × NodeVolume))
    (id : String) : List Event :=
  match alookup store0 id with
  | none => []
  | some vol =>
    match parseParams .nodeVolume vol.params with
    | .error _ => []
    | .ok p =>
      if p.getDeviceMode ≠ dmMode then
        if ¬ env.auxNew p.getDeviceMode then [] else [.dmGetDevice id]
      else []

def optPair (id : String) (o : Option NodeVolume) : List (String × NodeVolume) :=
  match o with
  | some v => [(id, v)]
  | none => []

/-- The table entry an id contributes during reconciliation. -/
def reconGain (dmMode : DeviceMode) (devices : List String) (env : ReconEnv)
    (store0 : List (String × NodeVolume)) (id : String) : Option NodeVolume :=
  if reconClass dmMode devices env store0 id = some true then alookup store0 id else none

/-! ## ListVolumes (controllerserver-node.go:401-478) -/

/-- Go `int32` wrap-around of an integer expression. -/
def i32wrap (x : Int) : Int := (x + 2147483648).emod 4294967296 - 2147483648

/-- Go `int32(u)` for a `uint32` value. -/
def uint32ToInt32 (n : Nat) : Int :=
  if n < 2147483648 then (n : Int) else (n : Int) - 4294967296

/-- Go `strconv.ParseUint(s, 10, 32)`: decimal digits only, value below
`2^32`; anything else (including overflow) is an error. -/
def goParseUint32 (s : String) : Option Nat :=
  if s.data ≠ [] ∧ s.data.all Char.isDigit then
    let v := digitsToNat s.data
    if v < 4294967296 then some v else none
  else none

/-- Go slice indexing `l[i]` with an `int32` index: out of range (also
negative) panics. -/
def sliceGet {α : Type} (l : List α) (i : Int) : Option α :=
  if i < 0 then none else l[i.toNat]?

/-- Embedding of `ListVolumes` on the snapshot `vols` of the in-memory
table (`maxEntriesReq` is the request's `int32` field).  `none` models a
Go runtime panic (negative `make` length or out-of-range slice index);
the entries carry `(id, capacity)`. -/
def listVolumes (vols : List NodeVolume) (maxEntriesReq : Int) (startingTokenStr : String) :
    Option (Except Code (List (String × Int) × String)) :=
  let ulenVols : Int := i32wrap vols.length
  let st0 : Option Int :=
    if startingTokenStr = "" then some 0
    else (goParseUint32 startingTokenStr).map uint32ToInt32
  match st0 with
  | none => some (.error .aborted)
  | some startingToken =>
    if startingToken > ulenVols then some (.error .aborted)
    else
      let rem := i32wrap (ulenVols - startingToken)
      let maxEntries := if maxEntriesReq = 0 ∨ maxEntriesReq > rem then rem else maxEntriesReq
      if maxEntries < 0 then none
      else
        match (List.range maxEntries.toNat).mapM (fun i => sliceGet vols (startingToken + i)) with
        | none => none
        | some entryVols =>
          let n := i32wrap (startingToken + maxEntries)
          let nextToken := if n < ulenVols then toString n else ""
          some (.ok (entryVols.map (fun v => (v.id, v.size)), nextToken))

/-! ## Node server (nodeserver.go, current version, lines 1-868) -/

structure PmemDeviceInfo where
  path : String
deriving DecidableEq

/-- Outcome of `dm.GetDevice`: the device, `pmemerr.DeviceNotFound`, or
any other error. -/
inductive GetDeviceRes
  | found (d : PmemDeviceInfo)
  | notFound
  | errOther
deriving DecidableEq

/-- One entry of `ns.mounter.List()`. -/
structure MountPoint where
  path : String
  mptype : String
  opts : List String
deriving DecidableEq

/-- Inner loop of `findMountFlags` (nodeserver.go:854-861): is the
requested flag present, treating `dax` and `dax=always` as the same. -/
def flagFoundIn (f : String) (findIn : List String) : Bool :=
  findIn.any (fun fIn =>
    (f == "dax=always" && fIn == "dax") ||
    (f == "dax" && fIn == "dax=always") ||
    f == fIn)

/-- `findMountFlags` (nodeserver.go:846-868): every requested flag other
than `bind` must be present in `findIn`. -/
def findMountFlags (flags : List String) (findIn : List String) : Bool :=
  flags.all (fun f => f == "bind" || flagFoundIn f findIn)

/-- The loop of nodeserver.go:244-255 scans `mpList` from the end and
stops at the first entry whose path is the target. -/
def lastMountEntry (mpList : List MountPoint) (target : String) : Option MountPoint :=
  mpList.reverse.find? (fun mp => mp.path == target)

/-- The ephemeral-volume decision (nodeserver.go:154-172): the explicit
`csi.storage.k8s.io/ephemeral` context key wins; without it a request is
ephemeral iff no device exists, no provisioner identity is present, and
no staging path was given.  `gdev` is `ns.cs.dm.GetDevice(volumeID)`. -/
def ephemeralHeuristic (volumeContext : List (String × String)) (srcPath : String)
    (gdev : GetDeviceRes) : Except Code Bool :=
  match alookup volumeContext keyEphemeral with
  | some val =>
    match parseGoBool val with
    | none => .error .invalidArgument
    | some b => .ok b
  | none =>
    match gdev with
    | .errOther => .error .internal
    | .found _ => .ok false
    | .notFound => .ok ((alookup volumeContext keyProvisionerID).isNone && srcPath == "")

/-- `getDeviceManagerForVolume` (nodeserver.go:779-800), reduced to its
error behaviour (the chosen manager itself is represented by oracles):
unknown volume is `NotFound`; a parse failure or a failing
`pmdmanager.New` is a plain (non-status) error. -/
def getDeviceManagerForVolume (S : ServerState) (id : String) (auxNewOk : Bool)
    (dmMode : DeviceMode) : Except Code Unit :=
  match getVolumeByID S id with
  | none => .error .notFound
  | some vol =>
    match parseParams .nodeVolume vol.params with
    | .error _ => .error .unknownErr
    | .ok v =>
      if v.getDeviceMode ≠ dmMode ∧ ¬ auxNewOk then .error .unknownErr
      else .ok ()

/-- Errors of `provisionDevice`; callers wrap every one of them into an
`Internal` status. -/
inductive ProvisionErr
  | alreadyExists
  | unsupportedFs
  | probeFailed
  | mkfsFailed
deriving DecidableEq

/-- `provisionDevice` (nodeserver.go:688-732): probe the device, skip
mkfs when the existing filesystem type matches the requested one
(defaulted to ext4), fail on a differing type, reject anything but
ext4/xfs, otherwise run mkfs.  `determineFs` is the
`determineFilesystemType` subprocess result (`""` = no filesystem). -/
def provisionDevice (device : PmemDeviceInfo) (fsType0 : String)
    (determineFs : Except Unit String) (mkfsOk : Bool) :
    Except ProvisionErr Unit × List Event :=
  let fsType := if fsType0 = "" then "ext4" else fsType0
  match determineFs with
  | .error _ => (.error .probeFailed, [])
  | .ok existingFsType =>
    if existingFsType ≠ "" then
      if existingFsType = fsType then (.ok (), [])
      else (.error .alreadyExists, [])
    else
      if fsType = "ext4" ∨ fsType = "xfs" then
        if mkfsOk then (.ok (), [.mkfs device.path])
        else (.error .mkfsFailed, [.mkfs device.path])
      else (.error .unsupportedFs, [])

/-- Access type of the volume capability.  For a block capability Go's
nil-tolerant accessors give `""` and `[]` for fsType and mount flags. -/
inductive AccessType
  | block
  | mountAccess (fsType : String) (mountFlags : List String)
deriving DecidableEq

/-- Oracles for `NodeStageVolume`: auxiliary manager construction,
`GetDevice`, the filesystem probe, and the mkfs/mount/xfs-configure
subprocess outcomes. -/
structure StageEnv where
  auxNewOk : Bool
  getDevice : GetDeviceRes
  determineFs : Except Unit String
  mkfsOk : Bool
  mountOk : Bool
  xfsConfigOk : Bool

/-- Embedding of `NodeStageVolume` (nodeserver.go:500-594).  The computed
mount options (including the `dax` flag for app-direct usage) are passed
to the external mount, whose success is the `mountOk` oracle. -/
def nodeStageVolume (S : ServerState) (volumeID stagingTargetPath : String)
    (cap : Option AccessType) (volumeContext : List (String × String))
    (dmMode : DeviceMode) (env : StageEnv) : Except Code Unit × List Event :=
  if volumeID = "" then (.error .invalidArgument, [])
  else if stagingTargetPath = "" then (.error .invalidArgument, [])
  else
    match cap with
    | none => (.error .invalidArgument, [])
    | some .block => (.ok (), [])
    | some (.mountAccess fsType0 _) =>
      let requestedFsType := if fsType0 = "" then "ext4" else fsType0
      match parseParams .persistentVolume volumeContext with
      | .error _ => (.error .invalidArgument, [])
      | .ok _ =>
        match getDeviceManagerForVolume S volumeID env.auxNewOk dmMode with
        | .error c => (.error c, [])
        | .ok _ =>
          match env.getDevice with
          | .notFound => (.error .notFound, [.dmGetDevice volumeID])
          | .errOther => (.error .internal, [.dmGetDevice volumeID])
          | .found device =>
            let ev0 : List Event := [.dmGetDevice volumeID]
            match env.determineFs with
            | .error _ => (.error .internal, ev0)
            | .ok existingFsType =>
              let mkfsStep : Except Code Unit × List Event :=
                if existingFsType ≠ "" then
                  if existingFsType = requestedFsType then (.ok (), [])
                  else (.error .alreadyExists, [])
                else
                  let pr := provisionDevice device requestedFsType env.determineFs env.mkfsOk
                  match pr.1 with
                  | .ok _ => (.ok (), pr.2)
                  | .error _ => (.error .internal, pr.2)
              match mkfsStep.1 with
              | .error c => (.error c, ev0 ++ mkfsStep.2)
              | .ok _ =>
                if ¬ env.mountOk then
                  (.error .internal, ev0 ++ mkfsStep.2 ++ [.mountOp stagingTargetPath])
                else if requestedFsType = "xfs" ∧ ¬ env.xfsConfigOk then
                  (.error .internal, ev0 ++ mkfsStep.2 ++ [.mountOp stagingTargetPath])
                else (.ok (), ev0 ++ mkfsStep.2 ++ [.mountOp stagingTargetPath])

/-- Oracles for `NodePublishVolume`. -/
structure PublishEnv where
  getDevice : GetDeviceRes
  auxNewOk : Bool
  createDev : CreateDeviceRes
  getDeviceAfterCreate : GetDeviceRes
  provisionFs : Except Unit String
  mkfsOk : Bool
  targetNotMnt : Except Unit Bool
  mountList : Except Unit (List MountPoint)

/-- Outcome of the publish embedding: `ok` is the early success return of
the compatible-existing-mount branch (no re-mount); `proceed` is the
point where the handler goes on to perform the actual (bind) mount with
the given source path and flags. -/
inductive PublishOutcome
  | ok
  | err (c : Code)
  | proceed (srcPath : String) (mountFlags : List String) (rawBlock : Bool)
deriving DecidableEq

/-- Common tail of `NodePublishVolume` (nodeserver.go:213-285): add `ro`,
branch on the access type, check an already-mounted target for
compatibility, reject raw block for Kata Containers, and otherwise
proceed to the mount. -/
def publishCommon (S : ServerState) (evs : List Event) (targetPath : String)
    (readOnly : Bool) (access : AccessType) (ephemeral : Bool)
    (device : PmemDeviceInfo) (srcPath0 : String) (flags0 : List String)
    (v : PVolume) (env : PublishEnv) : PublishOutcome × ServerState × List Event :=
  let mountFlags := flags0 ++ (if readOnly then ["ro"] else [])
  match access with
  | .block =>
    if v.getKataContainers then (.err .invalidArgument, S, evs)
    else (.proceed device.path mountFlags true, S, evs)
  | .mountAccess fsType _ =>
    if ¬ ephemeral ∧ srcPath0 = "" then (.err .failedPrecondition, S, evs)
    else
      match env.targetNotMnt with
      | .error _ => (.err .internal, S, evs)
      | .ok notMnt =>
        if notMnt then (.proceed srcPath0 mountFlags false, S, evs)
        else
          match env.mountList with
          | .error _ => (.err .internal, S, evs)
          | .ok mpList =>
            match lastMountEntry mpList targetPath with
            | some mp =>
              if (fsType == "" || mp.mptype == fsType) && findMountFlags mountFlags mp.opts
              then (.ok, S, evs)
              else (.err .alreadyExists, S, evs)
            | none => (.err .alreadyExists, S, evs)

/-- Embedding of `NodePublishVolume` (nodeserver.go:112-358) up to the
point where the handler performs the actual mount (the Kata Containers
image work behind that point is pure I/O and outside the model). -/
def nodePublishVolume (S : ServerState) (volumeID targetPath stagingTargetPath : String)
    (readOnly : Bool) (cap : Option AccessType) (volumeContext : List (String × String))
    (dmMode : DeviceMode) (env : PublishEnv) : PublishOutcome × ServerState × List Event :=
  match cap with
  | none => (.err .invalidArgument, S, [])
  | some access =>
    if volumeID = "" then (.err .invalidArgument, S, [])
    else if targetPath = "" then (.err .invalidArgument, S, [])
    else
      let mountFlags0 := match access with | .block => [] | .mountAccess _ fl => fl
      let fsType := match access with | .block => "" | .mountAccess f _ => f
      match ephemeralHeuristic volumeContext stagingTargetPath env.getDevice with
      | .error c => (.err c, S, [])
      | .ok true =>
        match parseParams .ephemeralVolume volumeContext with
        | .error _ => (.err .invalidArgument, S, [])
        | .ok v =>
          let p : PVolume := {v with persistency := some .ephemeral}
          let r := createVolumeInternal S p volumeID p.getSize env.createDev dmMode
          match r.1 with
          | .error c => (.err c, r.2.1, r.2.2)
          | .ok rv =>
            match env.getDeviceAfterCreate with
            | .found device =>
              let evs := r.2.2 ++ [.dmGetDevice rv.1]
              let pr := provisionDevice device fsType env.provisionFs env.mkfsOk
              match pr.1 with
              | .error _ => (.err .internal, r.2.1, evs ++ pr.2)
              | .ok _ =>
                let flags0 := mountFlags0 ++ (if v.getUsage = .appDirect then ["dax"] else [])
                publishCommon r.2.1 (evs ++ pr.2) targetPath readOnly access true device
                  device.path flags0 v env
            | _ => (.err .internal, r.2.1, r.2.2 ++ [.dmGetDevice rv.1])
      | .ok false =>
        match parseParams .persistentVolume volumeContext with
        | .error _ => (.err .invalidArgument, S, [])
        | .ok v =>
          match getDeviceManagerForVolume S volumeID env.auxNewOk dmMode with
          | .error c => (.err c, S, [])
          | .ok _ =>
            match env.getDevice with
            | .notFound => (.err .notFound, S, [.dmGetDevice volumeID])
            | .errOther => (.err .internal, S, [.dmGetDevice volumeID])
            | .found device =>
              publishCommon S [.dmGetDevice volumeID] targetPath readOnly access false device
                stagingTargetPath (mountFlags0 ++ ["bind"]) v env

/-! ## Spec-side definitions used to state the claims -/

/-- The volume ID as claim C2 words it, at byte level: the UTF-8 bytes of
the first six *characters* of the name, a dash, and the lowercase hex
SHA-224 digest of the name's bytes. -/
def claimVolumeIDBytes (name : String) : List Nat :=
  utf8Bytes (name.take 6) ++ [45] ++ hexEncodeBytes (sha224 (utf8Bytes name))

/-- Mount-flag compatibility as the spec words it: every requested flag
other than `bind` occurs among the existing mount's flags, with `dax`
and `dax=always` treated as the same flag. -/
def mountFlagsCompatible (flags opts : List String) : Prop :=
  ∀ f ∈ flags, f ≠ "bind" →
    ∃ g ∈ opts, f = g ∨ (f = "dax" ∧ g = "dax=always") ∨ (f = "dax=always" ∧ g = "dax")

instance (flags opts : List String) : Decidable (mountFlagsCompatible flags opts) := by
  unfold mountFlagsCompatible; infer_instance

/-- A state-store entry has a matching device, per its stored device
mode: for the active mode, membership in the startup `ListDevices`
snapshot; otherwise a successful `GetDevice` on the auxiliary manager. -/
def hasMatchingDevice (dmMode : DeviceMode) (devices : List String) (env : ReconEnv)
    (id : String) (p : PVolume) : Prop :=
  if p.getDeviceMode = dmMode then id ∈ devices else env.auxGet p.getDeviceMode id = .found

instance (dmMode : DeviceMode) (devices : List String) (env : ReconEnv) (id : String)
    (p : PVolume) : Decidable (hasMatchingDevice dmMode devices env id p) := by
  unfold hasMatchingDevice; infer_instance

/-! ## Concrete instances used by witnesses and counterexamples -/

deriving instance DecidableEq for Except

def volA : NodeVolume := {id := "idA", size := 100, params := [(keyName, "volA")]}

def stateA : ServerState := {pmemVolumes := [("idA", volA)], store := [("idA", volA)]}

def stateB : ServerState := {pmemVolumes := [], store := []}

def volB : NodeVolume :=
  {id := "idB", size := 50, params := [(keyName, "volB"), (keyDeviceMode, "lvm")]}

def stateC : ServerState := {pmemVolumes := [("idB", volB)], store := [("idB", volB)]}

def mpD : MountPoint := {path := "/t", mptype := "ext4", opts := ["rw", "relatime"]}

def volD : NodeVolume := {id := "idD", size := 40, params := [(keyName, "volD")]}

def stateE : ServerState := {pmemVolumes := [("idD", volD)], store := [("idD", volD)]}

def ctxD : List (String × String) := [(keyName, "volD"), (keyProvisionerID, "xy")]

def envPub : PublishEnv :=
  {getDevice := .found {path := "/dev/d"}, auxNewOk := true, createDev := .errOther,
   getDeviceAfterCreate := .notFound, provisionFs := .ok "", mkfsOk := true,
   targetNotMnt := .ok false, mountList := .ok [mpD]}

def volC : NodeVolume := {id := "idC", size := 30, params := [(keyName, "volC")]}

def stateD : ServerState := {pmemVolumes := [("idC", volC)], store := [("idC", volC)]}

def envStageBtrfs : StageEnv :=
  {auxNewOk := true, getDevice := .found {path := "/dev/c"}, determineFs := .ok "btrfs",
   mkfsOk := true, mountOk := true, xfsConfigOk := true}

def envStageExt4 : StageEnv :=
  {auxNewOk := true, getDevice := .found {path := "/dev/c"}, determineFs := .ok "ext4",
   mkfsOk := true, mountOk := true, xfsConfigOk := true}

def envStageEmpty : StageEnv :=
  {auxNewOk := true, getDevice := .found {path := "/dev/c"}, determineFs := .ok "",
   mkfsOk := true, mountOk := true, xfsConfigOk := true}

def volF : NodeVolume := {id := "idF", size := 5, params := [(keyName, "volF"), (keyDeviceMode, "lvm")]}

def volG : NodeVolume := {id := "idG", size := 6, params := [(keyName, "volG"), (keyDeviceMode, "lvm")]}

def storeF : List (String × NodeVolume) := [("idF", volF), ("idG", volG)]

def envRecon : ReconEnv := {auxNew := fun _ => true, auxGet := fun _ _ => .notFound}

/-! ## Helper lemmas about the association-list maps -/

theorem alookup_nil {α : Type} (k : String) : alookup ([] : List (String × α)) k = none := rfl

theorem alookup_cons {α : Type} (kv : String × α) (t : List (String × α)) (k : String) :
    alookup (kv :: t) k = if kv.1 = k then some kv.2 else alookup t k := rfl

theorem alookup_eraseKey_ne {α : Type} (k k' : String) (l : List (String × α)) (h : k' ≠ k) :
    alookup (eraseKey k l) k' = alookup l k' := by
  induction l with
  | nil => rfl
  | cons kv t ih =>
    by_cases hk : kv.1 = k <;> by_cases hk' : kv.1 = k' <;>
      simp_all [eraseKey, List.filter_cons, alookup_cons]

theorem alookup_eraseKey_self {α : Type} (k : String) (l : List (String × α)) :
    alookup (eraseKey k l) k = none := by
  induction l with
  | nil => rfl
  | cons kv t ih =>
    by_cases hk : kv.1 = k <;> simp_all [eraseKey, List.filter_cons, alookup_cons]

theorem alookup_insertKV_self {α : Type} (k : String) (v : α) (l : List (String × α)) :
    alookup (insertKV k v l) k = some v := by
  simp [insertKV, alookup_cons]

theorem alookup_of_mem_nodupKeys {α : Type} (l : List (String × α)) (kv : String × α)
    (hmem : kv ∈ l) (hn : (l.map Prod.fst).Nodup) : alookup l kv.1 = some kv.2 := by
  induction l with
  | nil => cases hmem
  | cons hd t ih =>
    rcases List.mem_cons.mp hmem with heq | htail
    · subst heq; simp [alookup_cons]
    · have hkeys : hd.1 ∉ t.map Prod.fst := by
        simp only [List.map_cons, List.nodup_cons] at hn
        exact hn.1
      have hne : hd.1 ≠ kv.1 := by
        intro hcontra
        exact hkeys (by rw [hcontra]; exact List.mem_map_of_mem Prod.fst htail)
      rw [alookup_cons, if_neg hne]
      exact ih htail (by simp only [List.map_cons, List.nodup_cons] at hn; exact hn.2)

theorem alookup_eq_none_of_not_mem_keys {α : Type} (l : List (String × α)) (k : String)
    (h : k ∉ l.map Prod.fst) : alookup l k = none := by
  induction l with
  | nil => rfl
  | cons hd t ih =>
    simp only [List.map_cons, List.mem_cons] at h
    push_neg at h
    rw [alookup_cons, if_neg (fun hc => h.1 hc.symm)]
    exact ih h.2

/-! ## Claim theorems -/

/-- Known-answer check of the SHA-224 embedding: the FIPS 180-4 test
vector for the message `"abc"`. -/
theorem sha224_known_vector :
    hexEncodeBytes (sha224 (utf8Bytes "abc")) =
      utf8Bytes "23097d223405d8228642a477bda255b32aadbce4bda0b3f7e36c9da7" := by
  decide

/-- C1: a CreateVolume request whose name matches an existing volume is
idempotent when the existing size covers the requested bytes (same ID
and size returned, nothing changed), and fails with AlreadyExists —
leaving everything unchanged — when the existing volume is smaller. -/
theorem claim_C1 (S : ServerState) (p : PVolume) (volumeName : String) (asked : Int)
    (cres : CreateDeviceRes) (dmMode : DeviceMode) (vol : NodeVolume)
    (hfound : getVolumeByName S volumeName = some vol) :
    (asked ≤ vol.size →
      createVolumeInternal S p volumeName asked cres dmMode = (.ok (vol.id, vol.size), S, [])) ∧
    (vol.size < asked →
      createVolumeInternal S p volumeName asked cres dmMode = (.error .alreadyExists, S, [])) := by
  constructor
  · intro h
    have hlt : ¬ vol.size < asked := not_lt.mpr h
    simp [createVolumeInternal, hfound, hlt]
  · intro h
    simp [createVolumeInternal, hfound, h]

theorem claim_C1_witness :
    createVolumeInternal stateA {} "volA" 50 .errOther .lvm = (.ok ("idA", 100), stateA, []) ∧
    createVolumeInternal stateA {} "volA" 200 .errOther .lvm =
      (.error .alreadyExists, stateA, []) := by
  constructor
  · exact (claim_C1 stateA {} "volA" 50 .errOther .lvm volA (by decide)).1 (by decide)
  · exact (claim_C1 stateA {} "volA" 200 .errOther .lvm volA (by decide)).2 (by decide)

/-- C2 counterexample: for a name of five two-byte characters the
generated ID starts with the first six *bytes* of the name (three
characters), not its first six characters, so the ID differs from the
claimed `first6(name) + "-" + sha224(name)` with `first6` read as
characters. -/
theorem claim_C2_counterexample :
    generateVolumeID (utf8Bytes "ααααα") ≠ claimVolumeIDBytes "ααααα" := by
  decide

/-- C2 (amended): the generated volume ID is the first six *bytes* of
the (UTF-8) name — the whole name when it is shorter — followed by a
dash and the lowercase hex SHA-224 digest of the name; being a function
of the name alone, the derivation is deterministic. -/
theorem claim_C2_amended (name : List Nat) :
    generateVolumeID name = name.take 6 ++ [45] ++ hexEncodeBytes (sha224 name) := by
  by_cases h : name.length < 6
  · simp [generateVolumeID, h, List.take_of_length_le (Nat.le_of_lt h)]
  · simp [generateVolumeID, h]

/-- C3: creating a volume under a fresh name persists the state entry
before `CreateDevice` is called; when `CreateDevice` fails the entry is
deleted again, the in-memory table is untouched, and the error code is
ResourceExhausted exactly for a not-enough-space failure and Internal
otherwise. -/
theorem claim_C3 (S : ServerState) (p : PVolume) (volumeName : String) (asked : Int)
    (dmMode : DeviceMode)
    (hname : getVolumeByName S volumeName = none)
    (hid : getVolumeByID S (generateVolumeIDStr volumeName) = none) :
    (∀ cres, (createVolumeInternal S p volumeName asked cres dmMode).2.2.take 2 =
      [.smCreate (generateVolumeIDStr volumeName),
       .dmCreateDevice (generateVolumeIDStr volumeName)]) ∧
    (∀ cres, cres = CreateDeviceRes.notEnoughSpace ∨ cres = CreateDeviceRes.errOther →
      (createVolumeInternal S p volumeName asked cres dmMode).1 =
        .error (if cres = CreateDeviceRes.notEnoughSpace then Code.resourceExhausted
                else Code.internal) ∧
      (createVolumeInternal S p volumeName asked cres dmMode).2.1.pmemVolumes =
        S.pmemVolumes ∧
      alookup (createVolumeInternal S p volumeName asked cres dmMode).2.1.store
        (generateVolumeIDStr volumeName) = none ∧
      (createVolumeInternal S p volumeName asked cres dmMode).2.2 =
        [.smCreate (generateVolumeIDStr volumeName),
         .dmCreateDevice (generateVolumeIDStr volumeName),
         .smDelete (generateVolumeIDStr volumeName)]) := by
  constructor
  · intro cres
    cases cres <;> simp [createVolumeInternal, hname, hid]
  · intro cres hfail
    rcases hfail with h | h <;> subst h <;>
      simp [createVolumeInternal, hname, hid, alookup_eraseKey_self]

theorem claim_C3_witness :
    (createVolumeInternal stateB {} "vol3" 10 .notEnoughSpace .lvm).1 =
      .error .resourceExhausted ∧
    (createVolumeInternal stateB {} "vol3" 10 .errOther .lvm).1 = .error .internal ∧
    (createVolumeInternal stateB {} "vol3" 10 .notEnoughSpace .lvm).2.2 =
      [.smCreate (generateVolumeIDStr "vol3"),
       .dmCreateDevice (generateVolumeIDStr "vol3"),
       .smDelete (generateVolumeIDStr "vol3")] := by
  have h := claim_C3 stateB {} "vol3" 10 .lvm (by decide) (by decide)
  refine ⟨?_, ?_, ?_⟩
  · exact ((h.2 .notEnoughSpace (Or.inl rfl)).1.trans (by simp))
  · exact ((h.2 .errOther (Or.inr rfl)).1.trans (by simp))
  · exact (h.2 .notEnoughSpace (Or.inl rfl)).2.2.2

/-- C4: DeleteVolume of an unknown (nonempty) ID succeeds without any
device or state operation; a `DeviceInUse` answer yields
FailedPrecondition with the volume still in the state store and the
table; on success the state-store entry is removed before the in-memory
entry, and both are gone. -/
theorem claim_C4 (S : ServerState) (volumeID : String) (auxNewOk : Bool)
    (dmMode : DeviceMode) (hid : volumeID ≠ "") :
    (getVolumeByID S volumeID = none →
      ∀ dres, deleteVolume S volumeID auxNewOk dres dmMode = (.ok (), S, [])) ∧
    (∀ vol p, getVolumeByID S volumeID = some vol →
      parseParams .nodeVolume vol.params = .ok p →
      (p.getDeviceMode = dmMode ∨ auxNewOk = true) →
      (deleteVolume S volumeID auxNewOk .deviceInUse dmMode =
         (.error .failedPrecondition, S, [.dmDeleteDevice volumeID]) ∧
       getVolumeByID S volumeID = some vol) ∧
      deleteVolume S volumeID auxNewOk .ok dmMode =
        (.ok (),
         {pmemVolumes := eraseKey volumeID S.pmemVolumes,
          store := eraseKey volumeID S.store},
         [.dmDeleteDevice volumeID, .smDelete volumeID, .memRemove volumeID]) ∧
      alookup (eraseKey volumeID S.pmemVolumes) volumeID = none ∧
      alookup (eraseKey volumeID S.store) volumeID = none) := by
  constructor
  · intro hnone dres
    cases dres <;> simp [deleteVolume, hid, hnone]
  · intro vol p hsome hparse hmode
    have hcond : ¬ (p.getDeviceMode ≠ dmMode ∧ ¬ auxNewOk = true) := by
      rcases hmode with h | h <;> simp [h]
    refine ⟨⟨?_, hsome⟩, ?_, alookup_eraseKey_self _ _, alookup_eraseKey_self _ _⟩ <;>
      simp [deleteVolume, hid, hsome, hparse, hcond] <;> tauto

theorem claim_C4_witness :
    deleteVolume stateC "missing" true .ok .lvm = (.ok (), stateC, []) ∧
    deleteVolume stateC "idB" true .deviceInUse .lvm =
      (.error .failedPrecondition, stateC, [.dmDeleteDevice "idB"]) ∧
    deleteVolume stateC "idB" true .ok .lvm =
      (.ok (), {pmemVolumes := [], store := []},
       [.dmDeleteDevice "idB", .smDelete "idB", .memRemove "idB"]) := by
  have h1 := (claim_C4 stateC "missing" true .lvm (by decide)).1 (by decide) .ok
  have h2 := (claim_C4 stateC "idB" true .lvm (by decide)).2 volB {name := some "volB", deviceMode := some .lvm}
    (by decide) (by decide) (Or.inr rfl)
  refine ⟨h1, h2.1.1, h2.2.1.trans ?_⟩
  decide

/-- C8: `ListVolumes` evaluated at the inputs where the claimed
`Aborted` answer is replaced by a Go runtime panic (`none`): any token
in `[2^31, 2^32)` survives `ParseUint(…, 10, 32)`, wraps to a negative
`int32`, evades the range check, and either makes the negative-length
`make` or the negative slice index panic; a well-formed request still
pages correctly. -/
theorem claim_C8_panic :
    listVolumes [] 0 "2147483648" = none ∧
    listVolumes [{id := "idE", size := 7, params := []}] 0 "4294967295" = none ∧
    listVolumes [{id := "idE", size := 7, params := []}] 0 "" =
      some (.ok ([("idE", 7)], "")) := by
  refine ⟨by decide, by decide, by decide⟩

/-- C10: a NodePublishVolume request without the
`csi.storage.k8s.io/ephemeral` context key is treated as an ephemeral
inline volume exactly when the device lookup reports no device, the
context has no provisioner identity, and no staging path was given. -/
theorem claim_C10 (volumeContext : List (String × String)) (srcPath : String)
    (gdev : GetDeviceRes)
    (hkey : alookup volumeContext keyEphemeral = none)
    (hok : gdev ≠ .errOther) :
    ephemeralHeuristic volumeContext srcPath gdev = .ok true ↔
      gdev = .notFound ∧ alookup volumeContext keyProvisionerID = none ∧ srcPath = "" := by
  unfold ephemeralHeuristic
  rw [hkey]
  cases gdev with
  | found d => simp
  | notFound => simp [Option.isNone_iff_eq_none]
  | errOther => exact absurd rfl hok

theorem claim_C10_witness :
    ephemeralHeuristic [(keyName, "x")] "" .notFound = .ok true := by
  exact (claim_C10 [(keyName, "x")] "" .notFound (by decide) (by decide)).mpr
    ⟨rfl, by decide, rfl⟩

/-- The Bool check of nodeserver.go:846-868 agrees with the spec-side
compatibility predicate. -/
theorem findMountFlags_iff (flags opts : List String) :
    findMountFlags flags opts = true ↔ mountFlagsCompatible flags opts := by
  simp only [findMountFlags, flagFoundIn, mountFlagsCompatible, List.all_eq_true,
    List.any_eq_true, Bool.or_eq_true, Bool.and_eq_true, beq_iff_eq]
  constructor
  · intro h f hf hbind
    rcases h f hf with h1 | ⟨g, hg, hcase⟩
    · exact absurd h1 hbind
    · exact ⟨g, hg, by tauto⟩
  · intro h f hf
    by_cases hbind : f = "bind"
    · exact Or.inl hbind
    · rcases h f hf hbind with ⟨g, hg, hcase⟩
      exact Or.inr ⟨g, hg, by tauto⟩

/-- The `bind` flag the handler adds for persistent volumes is invisible
to the compatibility predicate. -/
theorem mountFlagsCompatible_bind (a b opts : List String) :
    mountFlagsCompatible (a ++ "bind" :: b) opts ↔ mountFlagsCompatible (a ++ b) opts := by
  unfold mountFlagsCompatible
  constructor
  · intro h f hf hb
    apply h f _ hb
    simp only [List.mem_append, List.mem_cons] at hf ⊢
    tauto
  · intro h f hf hb
    have hmem : f ∈ a ++ b := by
      simp only [List.mem_append, List.mem_cons] at hf ⊢
      rcases hf with h1 | h2 | h3
      · exact Or.inl h1
      · exact absurd h2 hb
      · exact Or.inr h3
    exact h f hmem hb

/-- The already-mounted branch of the publish tail: with the target
reported as a mount point and a matching mount-table entry, the handler
returns OK without mounting exactly when the fsType and the effective
flags are compatible, and AlreadyExists otherwise; the state is never
changed there. -/
theorem publishCommon_mounted (S : ServerState) (evs : List Event) (targetPath : String)
    (readOnly : Bool) (fsType : String) (mfl : List String) (ephemeral : Bool)
    (device : PmemDeviceInfo) (srcPath0 : String) (flags0 : List String) (v : PVolume)
    (env : PublishEnv) (mp : MountPoint) (mpList : List MountPoint)
    (hsrc : ¬ (¬ ephemeral = true ∧ srcPath0 = ""))
    (hmnt : env.targetNotMnt = .ok false)
    (hlist : env.mountList = .ok mpList)
    (hmp : lastMountEntry mpList targetPath = some mp) :
    ((publishCommon S evs targetPath readOnly (.mountAccess fsType mfl) ephemeral device
        srcPath0 flags0 v env).1 = .ok ↔
      ((fsType = "" ∨ mp.mptype = fsType) ∧
        mountFlagsCompatible (flags0 ++ (if readOnly then ["ro"] else [])) mp.opts)) ∧
    ((publishCommon S evs targetPath readOnly (.mountAccess fsType mfl) ephemeral device
        srcPath0 flags0 v env).1 ≠ .ok →
      (publishCommon S evs targetPath readOnly (.mountAccess fsType mfl) ephemeral device
        srcPath0 flags0 v env).1 = .err .alreadyExists) ∧
    (publishCommon S evs targetPath readOnly (.mountAccess fsType mfl) ephemeral device
        srcPath0 flags0 v env).2.1 = S := by
  have hcond : ((fsType == "" || mp.mptype == fsType) &&
      findMountFlags (flags0 ++ (if readOnly then ["ro"] else [])) mp.opts) = true ↔
      ((fsType = "" ∨ mp.mptype = fsType) ∧
        mountFlagsCompatible (flags0 ++ (if readOnly then ["ro"] else [])) mp.opts) := by
    simp [Bool.and_eq_true, Bool.or_eq_true, beq_iff_eq, findMountFlags_iff]
  have hsrc2 : ¬ (ephemeral = false ∧ srcPath0 = "") := by simpa using hsrc
  cases hb : ((fsType == "" || mp.mptype == fsType) &&
      findMountFlags (flags0 ++ (if readOnly then ["ro"] else [])) mp.opts) with
  | false =>
    have hnr : ¬ ((fsType = "" ∨ mp.mptype = fsType) ∧
        mountFlagsCompatible (flags0 ++ (if readOnly then ["ro"] else [])) mp.opts) := by
      intro hr
      rw [hcond.mpr hr] at hb
      cases hb
    refine ⟨?_, ?_, ?_⟩ <;>
      simp [publishCommon, hmnt, hlist, hmp, hsrc2, hb, hnr]
  | true =>
    have hr := hcond.mp hb
    refine ⟨?_, ?_, ?_⟩ <;>
      simp [publishCommon, hmnt, hlist, hmp, hsrc2, hb, hr]

/-- C6 (amended): for a NodePublishVolume of a mount-access volume whose
target path is already a mount point, the call returns success without
re-mounting if and only if the requested fsType matches the mounted
filesystem type (or no fsType is requested) and the handler's effective
mount flags — the requested flags, plus `ro` when read-only is
requested, plus `dax` for an ephemeral app-direct volume, and ignoring
`bind` — are each present among the existing mount's flags (`dax` ≡
`dax=always`); in every other case it fails with AlreadyExists. -/
theorem claim_C6_amended (S : ServerState) (volumeID targetPath stagingTargetPath : String)
    (readOnly : Bool) (fsType : String) (mfl : List String)
    (volumeContext : List (String × String)) (dmMode : DeviceMode) (env : PublishEnv)
    (mp : MountPoint) (mpList : List MountPoint)
    (hvid : volumeID ≠ "") (htp : targetPath ≠ "")
    (hmnt : env.targetNotMnt = .ok false)
    (hlist : env.mountList = .ok mpList)
    (hmp : lastMountEntry mpList targetPath = some mp) :
    (∀ v device,
      stagingTargetPath ≠ "" →
      ephemeralHeuristic volumeContext stagingTargetPath env.getDevice = .ok false →
      parseParams .persistentVolume volumeContext = .ok v →
      getDeviceManagerForVolume S volumeID env.auxNewOk dmMode = .ok () →
      env.getDevice = .found device →
      ((nodePublishVolume S volumeID targetPath stagingTargetPath readOnly
          (some (.mountAccess fsType mfl)) volumeContext dmMode env).1 = .ok ↔
        ((fsType = "" ∨ mp.mptype = fsType) ∧
          mountFlagsCompatible (mfl ++ (if readOnly then ["ro"] else [])) mp.opts)) ∧
      ((nodePublishVolume S volumeID targetPath stagingTargetPath readOnly
          (some (.mountAccess fsType mfl)) volumeContext dmMode env).1 ≠ .ok →
        (nodePublishVolume S volumeID targetPath stagingTargetPath readOnly
          (some (.mountAccess fsType mfl)) volumeContext dmMode env).1 =
          .err .alreadyExists)) ∧
    (∀ v rv device,
      ephemeralHeuristic volumeContext stagingTargetPath env.getDevice = .ok true →
      parseParams .ephemeralVolume volumeContext = .ok v →
      (createVolumeInternal S {v with persistency := some .ephemeral} volumeID
        ({v with persistency := some Persistency.ephemeral} : PVolume).getSize
        env.createDev dmMode).1 = .ok rv →
      env.getDeviceAfterCreate = .found device →
      (provisionDevice device fsType env.provisionFs env.mkfsOk).1 = .ok () →
      ((nodePublishVolume S volumeID targetPath stagingTargetPath readOnly
          (some (.mountAccess fsType mfl)) volumeContext dmMode env).1 = .ok ↔
        ((fsType = "" ∨ mp.mptype = fsType) ∧
          mountFlagsCompatible
            ((mfl ++ (if v.getUsage = .appDirect then ["dax"] else [])) ++
              (if readOnly then ["ro"] else [])) mp.opts)) ∧
      ((nodePublishVolume S volumeID targetPath stagingTargetPath readOnly
          (some (.mountAccess fsType mfl)) volumeContext dmMode env).1 ≠ .ok →
        (nodePublishVolume S volumeID targetPath stagingTargetPath readOnly
          (some (.mountAccess fsType mfl)) volumeContext dmMode env).1 =
          .err .alreadyExists)) := by
  constructor
  · intro v device hst hheu hparse hgdm hdev
    rw [hdev] at hheu
    have heq : nodePublishVolume S volumeID targetPath stagingTargetPath readOnly
        (some (.mountAccess fsType mfl)) volumeContext dmMode env =
        publishCommon S [.dmGetDevice volumeID] targetPath readOnly
          (.mountAccess fsType mfl) false device stagingTargetPath (mfl ++ ["bind"]) v env := by
      simp only [nodePublishVolume, if_neg hvid, if_neg htp, hdev, hheu, hparse, hgdm]
    rw [heq]
    have h := publishCommon_mounted S [.dmGetDevice volumeID] targetPath readOnly fsType mfl
      false device stagingTargetPath (mfl ++ ["bind"]) v env mp mpList
      (fun hc => hst hc.2) hmnt hlist hmp
    have hflags : (mfl ++ ["bind"]) ++ (if readOnly then ["ro"] else []) =
        mfl ++ "bind" :: (if readOnly then ["ro"] else []) := by
      simp [List.append_assoc]
    have hbridge : mountFlagsCompatible
        ((mfl ++ ["bind"]) ++ (if readOnly then ["ro"] else [])) mp.opts ↔
        mountFlagsCompatible (mfl ++ (if readOnly then ["ro"] else [])) mp.opts := by
      rw [hflags]
      exact mountFlagsCompatible_bind mfl _ mp.opts
    exact ⟨h.1.trans (and_congr_right fun _ => hbridge), h.2.1⟩
  · intro v rv device hheu hparse hcreate hdev hprov
    have heq : nodePublishVolume S volumeID targetPath stagingTargetPath readOnly
        (some (.mountAccess fsType mfl)) volumeContext dmMode env =
        publishCommon
          (createVolumeInternal S {v with persistency := some .ephemeral} volumeID
            ({v with persistency := some Persistency.ephemeral} : PVolume).getSize
            env.createDev dmMode).2.1
          ((createVolumeInternal S {v with persistency := some .ephemeral} volumeID
            ({v with persistency := some Persistency.ephemeral} : PVolume).getSize
            env.createDev dmMode).2.2 ++ [.dmGetDevice rv.1] ++
            (provisionDevice device fsType env.provisionFs env.mkfsOk).2)
          targetPath readOnly (.mountAccess fsType mfl) true device device.path
          (mfl ++ (if v.getUsage = .appDirect then ["dax"] else [])) v env := by
      simp only [nodePublishVolume, if_neg hvid, if_neg htp, hheu, hparse, hcreate, hdev,
        hprov, List.append_assoc]
    rw [heq]
    have h := publishCommon_mounted
      (createVolumeInternal S {v with persistency := some .ephemeral} volumeID
        ({v with persistency := some Persistency.ephemeral} : PVolume).getSize
        env.createDev dmMode).2.1
      ((createVolumeInternal S {v with persistency := some .ephemeral} volumeID
        ({v with persistency := some Persistency.ephemeral} : PVolume).getSize
        env.createDev dmMode).2.2 ++ [.dmGetDevice rv.1] ++
        (provisionDevice device fsType env.provisionFs env.mkfsOk).2)
      targetPath readOnly fsType mfl true device device.path
      (mfl ++ (if v.getUsage = .appDirect then ["dax"] else [])) v env mp mpList
      (fun hc => hc.1 rfl) hmnt hlist hmp
    exact ⟨h.1, h.2.1⟩

/-- C6 counterexample: a read-only publish whose *requested* mount flags
(empty) and fsType (unspecified) are fully compatible with the existing
mount is still rejected with AlreadyExists, because the handler compares
the flags after appending `ro`; so idempotent-success-iff-requested-flags
-match, as stated, is false. -/
theorem claim_C6_counterexample :
    mountFlagsCompatible [] mpD.opts ∧
    (nodePublishVolume stateE "idD" "/t" "/st" true (some (.mountAccess "" [])) ctxD
      .lvm envPub).1 = .err .alreadyExists := by
  constructor
  · decide
  · decide

theorem claim_C6_witness :
    (nodePublishVolume stateE "idD" "/t" "/st" false (some (.mountAccess "" [])) ctxD
      .lvm envPub).1 = .ok := by
  exact ((claim_C6_amended stateE "idD" "/t" "/st" false "" [] ctxD .lvm envPub mpD [mpD]
    (by decide) (by decide) rfl rfl (by decide)).1 {name := some "volD"} {path := "/dev/d"}
    (by decide) (by decide) (by decide) (by decide) rfl).1.mpr ⟨Or.inl rfl, by decide⟩

/-- C7 (amended): NodeStageVolume returns success immediately for
raw-block access without touching the device; for filesystem access, if
the device already carries a filesystem of the requested type (default
ext4) mkfs is skipped — even for an otherwise unsupported fsType — if it
carries a filesystem of a different type the call fails with
AlreadyExists, and a requested fsType other than ext4 or xfs is rejected
with an error when the device carries no filesystem yet. -/
theorem claim_C7_amended (S : ServerState) (volumeID stagingTargetPath : String)
    (volumeContext : List (String × String)) (dmMode : DeviceMode) (env : StageEnv)
    (fsType0 : String) (mountFlags : List String)
    (hv : volumeID ≠ "") (hp : stagingTargetPath ≠ "") :
    nodeStageVolume S volumeID stagingTargetPath (some .block) volumeContext dmMode env
      = (.ok (), []) ∧
    (∀ v device existingFsType,
      parseParams .persistentVolume volumeContext = .ok v →
      getDeviceManagerForVolume S volumeID env.auxNewOk dmMode = .ok () →
      env.getDevice = .found device →
      env.determineFs = .ok existingFsType →
      ((existingFsType = (if fsType0 = "" then "ext4" else fsType0) →
        ∀ pth, Event.mkfs pth ∉
          (nodeStageVolume S volumeID stagingTargetPath
            (some (.mountAccess fsType0 mountFlags)) volumeContext dmMode env).2) ∧
      (existingFsType ≠ "" → existingFsType ≠ (if fsType0 = "" then "ext4" else fsType0) →
        (nodeStageVolume S volumeID stagingTargetPath
          (some (.mountAccess fsType0 mountFlags)) volumeContext dmMode env).1 =
          .error .alreadyExists) ∧
      (existingFsType = "" → (if fsType0 = "" then "ext4" else fsType0) ≠ "ext4" →
        (if fsType0 = "" then "ext4" else fsType0) ≠ "xfs" →
        (nodeStageVolume S volumeID stagingTargetPath
          (some (.mountAccess fsType0 mountFlags)) volumeContext dmMode env).1 =
          .error .internal))) := by
  have hreq : (if fsType0 = "" then "ext4" else fsType0) ≠ "" := by
    by_cases hf : fsType0 = "" <;> simp [hf]
  constructor
  · simp [nodeStageVolume, hv, hp]
  · intro v device existingFsType hparse hgdm hdev hdfs
    refine ⟨?_, ?_, ?_⟩
    · intro hsame pth
      subst hsame
      simp only [nodeStageVolume, if_neg hv, if_neg hp, hparse, hgdm, hdev, hdfs]
      rw [if_pos hreq]
      split_ifs <;> simp
    · intro hne hdiff
      simp [nodeStageVolume, hv, hp, hparse, hgdm, hdev, hdfs, hne, hdiff]
    · intro hexist hne4 hnxfs
      subst hexist
      simp [nodeStageVolume, hv, hp, hparse, hgdm, hdev, hdfs, provisionDevice, hreq,
        hne4, hnxfs]

/-- C7 counterexample: staging with the unsupported fsType `btrfs`
succeeds (no rejection) when the device already carries a btrfs
filesystem, because the existing-filesystem check runs before the
fsType validation inside mkfs; the claim's unconditional "other fsType
is rejected" is therefore false. -/
theorem claim_C7_counterexample :
    nodeStageVolume stateD "idC" "/st" (some (.mountAccess "btrfs" [])) [(keyName, "volC")]
      .lvm envStageBtrfs = (.ok (), [.dmGetDevice "idC", .mountOp "/st"]) := by
  decide

theorem claim_C7_witness :
    nodeStageVolume stateD "idC" "/st" (some .block) [(keyName, "volC")] .lvm envStageExt4
      = (.ok (), []) ∧
    Event.mkfs "/dev/c" ∉
      (nodeStageVolume stateD "idC" "/st" (some (.mountAccess "" [])) [(keyName, "volC")]
        .lvm envStageExt4).2 ∧
    (nodeStageVolume stateD "idC" "/st" (some (.mountAccess "xfs" [])) [(keyName, "volC")]
      .lvm envStageExt4).1 = .error .alreadyExists ∧
    (nodeStageVolume stateD "idC" "/st" (some (.mountAccess "btrfs" [])) [(keyName, "volC")]
      .lvm envStageEmpty).1 = .error .internal := by
  have h1 := claim_C7_amended stateD "idC" "/st" [(keyName, "volC")] .lvm envStageExt4
    "" [] (by decide) (by decide)
  have h2 := claim_C7_amended stateD "idC" "/st" [(keyName, "volC")] .lvm envStageExt4
    "xfs" [] (by decide) (by decide)
  have h3 := claim_C7_amended stateD "idC" "/st" [(keyName, "volC")] .lvm envStageEmpty
    "btrfs" [] (by decide) (by decide)
  refine ⟨h1.1, ?_, ?_, ?_⟩
  · exact (h1.2 {name := some "volC"} {path := "/dev/c"} "ext4" (by decide) (by decide)
      rfl rfl).1 (by decide) "/dev/c"
  · exact (h2.2 {name := some "volC"} {path := "/dev/c"} "ext4" (by decide) (by decide)
      rfl rfl).2.1 (by decide) (by decide)
  · exact (h3.2 {name := some "volC"} {path := "/dev/c"} "" (by decide) (by decide)
      rfl rfl).2.2 rfl (by decide) (by decide)

theorem alookup_append {α : Type} (x y : List (String × α)) (k : String) :
    alookup (x ++ y) k =
      match alookup x k with
      | some v => some v
      | none => alookup y k := by
  induction x with
  | nil => rfl
  | cons kv t ih => by_cases h : kv.1 = k <;> simp [alookup_cons, h, ih]

theorem reconcileStep_eq (dmMode : DeviceMode) (devices : List String) (env : ReconEnv)
    (store0 : List (String × NodeVolume))
    (acc : List (String × NodeVolume) × List String × List Event) (id : String) :
    reconcileStep dmMode devices env store0 acc id =
      (acc.1 ++ optPair id (reconGain dmMode devices env store0 id),
       acc.2.1 ++ (if reconClass dmMode devices env store0 id == some false then [id] else []),
       acc.2.2 ++ reconEv dmMode env store0 id) := by
  unfold reconcileStep reconGain reconEv optPair
  cases halookup : alookup store0 id with
  | none => simp [reconClass, halookup]
  | some vol =>
    cases hparse : parseParams .nodeVolume vol.params with
    | error s => simp [reconClass, halookup, hparse]
    | ok p =>
      by_cases hmode : p.getDeviceMode ≠ dmMode
      · by_cases hnew : ¬ env.auxNew p.getDeviceMode
        · simp [reconClass, halookup, hparse, hmode, hnew]
        · cases hget : env.auxGet p.getDeviceMode id <;>
            simp [reconClass, halookup, hparse, hmode, hnew, hget]
      · by_cases hdev : id ∈ devices <;>
          simp [reconClass, halookup, hparse, hmode, hdev]

theorem reconcile_foldl (dmMode : DeviceMode) (devices : List String) (env : ReconEnv)
    (store0 : List (String × NodeVolume)) (ids : List String)
    (t : List (String × NodeVolume)) (c : List String) (e : List Event) :
    ids.foldl (reconcileStep dmMode devices env store0) (t, c, e) =
      (t ++ ids.flatMap (fun id => optPair id (reconGain dmMode devices env store0 id)),
       c ++ ids.filter (fun id => reconClass dmMode devices env store0 id == some false),
       e ++ ids.flatMap (reconEv dmMode env store0)) := by
  induction ids generalizing t c e with
  | nil => simp
  | cons id rest ih =>
    rw [List.foldl_cons, reconcileStep_eq, ih]
    by_cases hcond : (reconClass dmMode devices env store0 id == some false) = true <;>
      simp [List.filter_cons, List.flatMap_cons, List.append_assoc, hcond]

theorem newNodeControllerServer_eq (dmMode : DeviceMode) (devices : List String)
    (store0 : List (String × NodeVolume)) (env : ReconEnv) :
    newNodeControllerServer dmMode devices store0 env =
      ({pmemVolumes := (store0.map Prod.fst).flatMap
          (fun id => optPair id (reconGain dmMode devices env store0 id)),
        store := ((store0.map Prod.fst).filter
          (fun id => reconClass dmMode devices env store0 id == some false)).foldl
            (fun st id => eraseKey id st) store0},
       (store0.map Prod.fst).flatMap (reconEv dmMode env store0) ++
         ((store0.map Prod.fst).filter
           (fun id => reconClass dmMode devices env store0 id == some false)).map
             .smDelete) := by
  unfold newNodeControllerServer
  simp only [reconcile_foldl]
  simp

theorem alookup_foldl_eraseKey (c : List String) (store : List (String × NodeVolume))
    (id : String) :
    alookup (c.foldl (fun st i => eraseKey i st) store) id =
      if id ∈ c then none else alookup store id := by
  induction c generalizing store with
  | nil => simp
  | cons i rest ih =>
    rw [List.foldl_cons, ih]
    by_cases hmem : id ∈ rest
    · simp [hmem, List.mem_cons]
    · by_cases hi : id = i
      · subst hi
        simp [hmem, alookup_eraseKey_self]
      · simp [hmem, hi, alookup_eraseKey_ne _ _ _ hi]

theorem alookup_flatMap_optPair_not_mem (g : String → Option NodeVolume) (ids : List String)
    (id : String) (h : id ∉ ids) :
    alookup (ids.flatMap (fun i => optPair i (g i))) id = none := by
  induction ids with
  | nil => rfl
  | cons i rest ih =>
    have hne : i ≠ id := fun hc => h (hc ▸ List.mem_cons_self i rest)
    have hrest : id ∉ rest := fun hc => h (List.mem_cons_of_mem i hc)
    rw [List.flatMap_cons,
      alookup_append (optPair i (g i)) (rest.flatMap fun j => optPair j (g j)) id]
    cases hg : g i with
    | none => simpa [optPair, hg] using ih hrest
    | some v =>
      have h0 : alookup (optPair i (some v)) id = none := by
        simp [optPair, alookup_cons, alookup_nil, hne]
      rw [h0]
      exact ih hrest

theorem alookup_flatMap_optPair (g : String → Option NodeVolume) (ids : List String)
    (id : String) (hmem : id ∈ ids) (hn : ids.Nodup) :
    alookup (ids.flatMap (fun i => optPair i (g i))) id = g id := by
  induction ids with
  | nil => cases hmem
  | cons i rest ih =>
    rw [List.flatMap_cons,
      alookup_append (optPair i (g i)) (rest.flatMap fun j => optPair j (g j)) id]
    rcases List.mem_cons.mp hmem with heq | htail
    · subst heq
      have hrest : id ∉ rest := (List.nodup_cons.mp hn).1
      cases hg : g id with
      | none => simpa [optPair, hg] using alookup_flatMap_optPair_not_mem g rest id hrest
      | some v => simp [optPair, hg, alookup_cons]
    · have hne : i ≠ id := by
        intro hc
        subst hc
        exact (List.nodup_cons.mp hn).1 htail
      have ih2 := ih htail (List.nodup_cons.mp hn).2
      cases hg : g i with
      | none => simpa [optPair, hg] using ih2
      | some v =>
        have h0 : alookup (optPair i (some v)) id = none := by
          simp [optPair, alookup_cons, alookup_nil, hne]
        rw [h0]
        exact ih2

theorem reconClass_good (dmMode : DeviceMode) (devices : List String) (env : ReconEnv)
    (store0 : List (String × NodeVolume)) (kv : String × NodeVolume) (p : PVolume)
    (hlook : alookup store0 kv.1 = some kv.2)
    (hparse : parseParams .nodeVolume kv.2.params = .ok p)
    (hgood : p.getDeviceMode ≠ dmMode → env.auxNew p.getDeviceMode = true ∧
      env.auxGet p.getDeviceMode kv.1 ≠ .errOther) :
    (hasMatchingDevice dmMode devices env kv.1 p →
      reconClass dmMode devices env store0 kv.1 = some true) ∧
    (¬ hasMatchingDevice dmMode devices env kv.1 p →
      reconClass dmMode devices env store0 kv.1 = some false) := by
  unfold reconClass hasMatchingDevice
  simp only [hlook, hparse]
  by_cases hmode : p.getDeviceMode = dmMode
  · by_cases hdev : kv.1 ∈ devices <;> simp [hmode, hdev]
  · obtain ⟨hnew, hget⟩ := hgood hmode
    cases hg : env.auxGet p.getDeviceMode kv.1 with
    | found => simp [hmode, hnew, hg]
    | notFound => simp [hmode, hnew, hg]
    | errOther => exact absurd hg hget

theorem reconEv_mem (dmMode : DeviceMode) (env : ReconEnv)
    (store0 : List (String × NodeVolume)) (id : String) (ev : Event)
    (h : ev ∈ reconEv dmMode env store0 id) : ev = .dmGetDevice id := by
  unfold reconEv at h
  split at h
  · cases h
  · split at h
    · cases h
    · split at h
      · split at h
        · cases h
        · simpa using h
      · cases h

/-- C5: after startup reconciliation, every stored (parseable) volume
whose device-mode query behaves either has a matching device and sits in
the in-memory table, or its state-store entry is gone; a reported device
without a state entry is never added to the table; reconciliation never
deletes a device and only ever deletes state entries for stored ids. -/
theorem claim_C5 (dmMode : DeviceMode) (devices : List String)
    (store0 : List (String × NodeVolume)) (env : ReconEnv)
    (hn : (store0.map Prod.fst).Nodup)
    (hgood : ∀ kv ∈ store0, ∃ p, parseParams .nodeVolume kv.2.params = .ok p ∧
      (p.getDeviceMode ≠ dmMode → env.auxNew p.getDeviceMode = true ∧
        env.auxGet p.getDeviceMode kv.1 ≠ .errOther)) :
    (∀ kv ∈ store0, ∀ p, parseParams .nodeVolume kv.2.params = .ok p →
      (hasMatchingDevice dmMode devices env kv.1 p →
        alookup (newNodeControllerServer dmMode devices store0 env).1.pmemVolumes kv.1 =
          some kv.2) ∧
      (¬ hasMatchingDevice dmMode devices env kv.1 p →
        alookup (newNodeControllerServer dmMode devices store0 env).1.store kv.1 = none)) ∧
    (∀ d, alookup store0 d = none →
      alookup (newNodeControllerServer dmMode devices store0 env).1.pmemVolumes d = none) ∧
    (∀ id, Event.dmDeleteDevice id ∉ (newNodeControllerServer dmMode devices store0 env).2) ∧
    (∀ id, Event.smDelete id ∈ (newNodeControllerServer dmMode devices store0 env).2 →
      ∃ vol, (id, vol) ∈ store0) := by
  rw [newNodeControllerServer_eq]
  refine ⟨?_, ?_, ?_, ?_⟩
  · intro kv hkv p hparse
    have hlook := alookup_of_mem_nodupKeys store0 kv hkv hn
    obtain ⟨p', hp', hgd⟩ := hgood kv hkv
    have hpp : p' = p := by
      rw [hp'] at hparse
      exact (Except.ok.inj hparse)
    subst hpp
    have hcl := reconClass_good dmMode devices env store0 kv p' hlook hp' hgd
    have hid : kv.1 ∈ store0.map Prod.fst := List.mem_map_of_mem Prod.fst hkv
    constructor
    · intro hmatch
      rw [alookup_flatMap_optPair _ _ _ hid hn]
      unfold reconGain
      rw [hcl.1 hmatch, if_pos rfl]
      exact hlook
    · intro hnm
      rw [alookup_foldl_eraseKey, if_pos]
      rw [List.mem_filter]
      exact ⟨hid, by rw [hcl.2 hnm]; rfl⟩
  · intro d hd
    have hdid : d ∉ store0.map Prod.fst := by
      intro hc
      obtain ⟨kv, hkv, hfst⟩ := List.mem_map.mp hc
      rw [← hfst, alookup_of_mem_nodupKeys store0 kv hkv hn] at hd
      cases hd
    exact alookup_flatMap_optPair_not_mem _ _ _ hdid
  · intro id hmem
    rcases List.mem_append.mp hmem with hfm | hmap
    · obtain ⟨i, _, hev⟩ := List.mem_flatMap.mp hfm
      cases reconEv_mem dmMode env store0 i _ hev
    · obtain ⟨i, _, hev⟩ := List.mem_map.mp hmap
      cases hev
  · intro id hmem
    rcases List.mem_append.mp hmem with hfm | hmap
    · obtain ⟨i, _, hev⟩ := List.mem_flatMap.mp hfm
      cases reconEv_mem dmMode env store0 i _ hev
    · obtain ⟨i, hi, hev⟩ := List.mem_map.mp hmap
      have hii : i = id := by cases hev; rfl
      subst hii
      have hkeys : i ∈ store0.map Prod.fst := (List.mem_filter.mp hi).1
      obtain ⟨kv, hkv, hfst⟩ := List.mem_map.mp hkeys
      exact ⟨kv.2, by rw [← hfst]; exact hkv⟩

theorem claim_C5_witness :
    alookup (newNodeControllerServer .lvm ["idF"] storeF envRecon).1.pmemVolumes "idF" =
      some volF ∧
    alookup (newNodeControllerServer .lvm ["idF"] storeF envRecon).1.store "idG" = none ∧
    alookup (newNodeControllerServer .lvm ["idF"] storeF envRecon).1.pmemVolumes "idX" =
      none ∧
    Event.dmDeleteDevice "idG" ∉ (newNodeControllerServer .lvm ["idF"] storeF envRecon).2 := by
  have hgood : ∀ kv ∈ storeF, ∃ p, parseParams .nodeVolume kv.2.params = .ok p ∧
      (p.getDeviceMode ≠ DeviceMode.lvm → envRecon.auxNew p.getDeviceMode = true ∧
        envRecon.auxGet p.getDeviceMode kv.1 ≠ .errOther) := by
    intro kv hkv
    rcases List.mem_cons.mp hkv with h1 | h2
    · subst h1
      exact ⟨{name := some "volF", deviceMode := some .lvm}, by decide,
        fun hc => absurd rfl hc⟩
    · rcases List.mem_cons.mp h2 with h3 | h4
      · subst h3
        exact ⟨{name := some "volG", deviceMode := some .lvm}, by decide,
          fun hc => absurd rfl hc⟩
      · cases h4
  have h := claim_C5 .lvm ["idF"] storeF envRecon (by decide) hgood
  refine ⟨?_, ?_, h.2.1 "idX" (by decide), h.2.2.1 "idG"⟩
  · exact (h.1 ("idF", volF) (by decide) {name := some "volF", deviceMode := some .lvm}
      (by decide)).1 (by decide)
  · exact (h.1 ("idG", volG) (by decide) {name := some "volG", deviceMode := some .lvm}
      (by decide)).2 (by decide)

end PmemCSI

